import Mathlib

/-!
Verification of the dns-thingy DNS message codec and stub resolver.

The development shallowly embeds the Rust sources:
  src/crates/dns/src/parse/parser.rs   (cursor, collation, domain-name codec,
                                        question/answer/header parsing)
  src/crates/dns/src/resolver.rs       (query generation)

Modelling conventions:
  - A DNS packet buffer (Rust type DnsPacketBuffer = the array of 512 bytes u8)
    is a List Nat of length 512 whose elements are byte values.
  - Rust strings are modelled by their byte sequences (List Nat).  The Rust
    decoder builds a String by pushing each raw byte as a char, and the encoder
    consumes the string bytewise, so for ASCII content the byte-sequence model
    is exact.
  - A Rust panic (out-of-range slice indexing in peek/advance, or a todo
    marker reached in parse_answer) is modelled by the value none at the cursor
    level and by PRes.panicked at the parser level.  The Rust recursion of
    parse_domain_name_rec has no termination guarantee, so the embedding takes
    an explicit fuel argument; PRes.outOfFuel marks a computation that is still
    running when the fuel is exhausted, for every choice of fuel.
-/

/-- Result of a parsing computation.  ok is a normal return, panicked models a
Rust panic (slice-bounds failure or a todo marker), outOfFuel marks exhaustion
of the fuel that the embedding adds to the unbounded Rust recursion. -/
inductive PRes (α : Type) where
  | ok (val : α)
  | panicked
  | outOfFuel
deriving DecidableEq, Repr

/-- Sequencing of parser results: errors propagate. -/
def PRes.bind {α β : Type} : PRes α → (α → PRes β) → PRes β
  | .ok a, f => f a
  | .panicked, _ => .panicked
  | .outOfFuel, _ => .outOfFuel

/-- Collate (parser.rs, impl Collate): fold the bytes into an unsigned integer,
most significant byte first, by acc shifted left 8 then or-ed with the byte.
The Rust accumulator is usize; every call site collates at most 4 bytes, so
the Nat model is exact. -/
def collate (l : List Nat) : Nat :=
  l.foldl (fun acc b => acc <<< 8 ||| b) 0

/-- DnsParser::peek (parser.rs line 39): returns the n bytes starting at the
current position without moving the cursor.  The Rust body indexes
self.buf with the range position..position+n, which panics when the end of the
range exceeds the buffer length; the panic is modelled by none.
DnsParser::peek_n is the fixed-width variant with identical semantics. -/
def peek (buf : List Nat) (pos n : Nat) : Option (List Nat) :=
  if pos + n ≤ buf.length then some ((buf.drop pos).take n) else none

/-- DnsParser::advance (parser.rs line 49): returns the n bytes starting at the
current position and moves the cursor forward by n.  Same bounds behaviour as
peek: an out-of-range slice panics, modelled by none.  DnsParser::advance_n is
the fixed-width variant with identical semantics. -/
def advance (buf : List Nat) (pos n : Nat) : Option (List Nat × Nat) :=
  if pos + n ≤ buf.length then some ((buf.drop pos).take n, pos + n) else none

/-- The three mutually recursive control points of the Rust domain-name
decoder: recur is parse_domain_name_rec, inline is the entry of
parse_domain_name_inline, and loop is the while loop inside
parse_domain_name_inline, carrying the current value of the local variable
next. -/
inductive NameStep where
  | recur
  | inlined
  | looping (next : Nat)
deriving DecidableEq, Repr

/-- The domain-name decoder of parser.rs lines 72-109, fuel-indexed.

mode recur  = fn parse_domain_name_rec: peek one byte; when its collated value
equals 0xC0 consume two bytes, xor the collated pair with 0xC000 to obtain an
offset, save the cursor (already past the pointer), jump to the offset, decode
recursively, and restore the saved cursor; otherwise decode inline.

mode inlined = fn parse_domain_name_inline before its while loop: peek one
byte; when its value equals 192 return immediately; otherwise enter the loop.

mode looping next = the while loop: while next > 0 and next is not 192,
consume the length byte, consume next label bytes and append them to the
output, peek the following byte, append a dot separator when that byte is
positive, and when it equals 192 switch back to parse_domain_name_rec;
when the loop exits, consume the terminating zero byte.

The accumulator acc is the String being built (as its byte sequence); the
result carries the decoded bytes and the final cursor position. -/
def parseName : Nat → NameStep → List Nat → Nat → List Nat → PRes (List Nat × Nat)
  | 0, _, _, _, _ => .outOfFuel
  | fuel + 1, step, buf, pos, acc =>
    match step with
    | .recur =>
      match peek buf pos 1 with
      | none => .panicked
      | some b =>
        if collate b = 0xC0 then
          match advance buf pos 2 with
          | none => .panicked
          | some (pbytes, pos2) =>
            match parseName fuel .recur buf (collate pbytes ^^^ 0xC000) acc with
            | .ok (name, _) => .ok (name, pos2)
            | r => r
        else
          parseName fuel .inlined buf pos acc
    | .inlined =>
      match peek buf pos 1 with
      | none => .panicked
      | some b =>
        if collate b = 192 then .ok (acc, pos)
        else parseName fuel (.looping (collate b)) buf pos acc
    | .looping next =>
      if next > 0 ∧ next ≠ 192 then
        match advance buf pos 1 with
        | none => .panicked
        | some (_, pos1) =>
          match advance buf pos1 next with
          | none => .panicked
          | some (label, pos2) =>
            match peek buf pos2 1 with
            | none => .panicked
            | some nb =>
              let next2 := collate nb
              let acc2 := if next2 > 0 then acc ++ label ++ [46] else acc ++ label
              if next2 = 192 then parseName fuel .recur buf pos2 acc2
              else parseName fuel (.looping next2) buf pos2 acc2
      else
        match advance buf pos 1 with
        | none => .panicked
        | some (_, posf) => .ok (acc, posf)

/-- DnsParser::parse_domain_name_rec (parser.rs line 72), as a fuel-indexed
entry point into parseName. -/
def parse_domain_name_rec (fuel : Nat) (buf : List Nat) (pos : Nat) (acc : List Nat) :
    PRes (List Nat × Nat) :=
  parseName fuel .recur buf pos acc

/-- DnsParser::parse_domain_name_inline (parser.rs line 87). -/
def parse_domain_name_inline (fuel : Nat) (buf : List Nat) (pos : Nat) (acc : List Nat) :
    PRes (List Nat × Nat) :=
  parseName fuel .inlined buf pos acc

/-- DnsParser::parse_domain_name (parser.rs line 63): start from an empty
String and run parse_domain_name_rec.  Returns the decoded name bytes and the
cursor position after the decode. -/
def parse_domain_name (fuel : Nat) (buf : List Nat) (pos : Nat) : PRes (List Nat × Nat) :=
  parseName fuel .recur buf pos []

/-- Question (protocol/question.rs, used by parser.rs parse_question):
domain name, query type, query class.  class is a Lean keyword, hence the
field name class_. -/
structure Question where
  domain_name : List Nat
  type : Nat
  class_ : Nat
deriving DecidableEq, Repr

/-- DnsParser::parse_question (parser.rs line 111): a domain name followed by
two big-endian 16-bit fields, type then class. -/
def parse_question (fuel : Nat) (buf : List Nat) (pos : Nat) : PRes (Question × Nat) :=
  (parse_domain_name fuel buf pos).bind fun np =>
    match advance buf np.2 2 with
    | none => .panicked
    | some (tb, pos2) =>
      match advance buf pos2 2 with
      | none => .panicked
      | some (cb, pos3) =>
        .ok ({ domain_name := np.1, type := collate tb, class_ := collate cb }, pos3)

/-- Modelled from the spec: the RecordType enumeration lives in
src/crates/dns/src/protocol/record_type.rs, which is not under src/.
Spec section 3: an open enumeration over the IANA-assigned values A, NS, MD,
MF, CNAME, SOA, MB, MG, MR, NULL, WKS, PTR, HINFO, MINFO, MX, TXT, AXFR,
MAILB, MAILA, ANY, URI, and a catch-all other; any 16-bit value must map to a
variant, unknown values map to other, never to a decode failure. -/
inductive RecordType where
  | A | NS | MD | MF | CNAME | SOA | MB | MG | MR | NULL | WKS | PTR
  | HINFO | MINFO | MX | TXT | AXFR | MAILB | MAILA | ANY | URI | OTHER
deriving DecidableEq, Repr

/-- Modelled from the spec: the From conversion of a numeric value to a
RecordType (record_type.rs is not under src/).  The numeric values are the
IANA assignments the spec names; every other value maps to OTHER. -/
def RecordType.fromNat (n : Nat) : RecordType :=
  if n = 1 then .A else if n = 2 then .NS else if n = 3 then .MD
  else if n = 4 then .MF else if n = 5 then .CNAME else if n = 6 then .SOA
  else if n = 7 then .MB else if n = 8 then .MG else if n = 9 then .MR
  else if n = 10 then .NULL else if n = 11 then .WKS else if n = 12 then .PTR
  else if n = 13 then .HINFO else if n = 14 then .MINFO else if n = 15 then .MX
  else if n = 16 then .TXT else if n = 252 then .AXFR else if n = 253 then .MAILB
  else if n = 254 then .MAILA else if n = 255 then .ANY else if n = 256 then .URI
  else .OTHER

/-- AnswerMeta (protocol/answer.rs, populated by parse_answer): shared
metadata of every resource record.  class is a Lean keyword, hence class_. -/
structure AnswerMeta where
  name : List Nat
  class_ : Nat
  len : Nat
  ttl : Nat
  type : RecordType
deriving DecidableEq, Repr

/-- Answer (protocol/answer.rs): tagged union of decoded records.  Only the A
and CNAME payloads are decoded by parse_answer; every other arm of the Rust
match is a todo marker, so no further variants can be produced. -/
inductive Answer where
  | A (meta : AnswerMeta) (ipv4 : List Nat)
  | CNAME (meta : AnswerMeta) (cname : List Nat)
deriving DecidableEq, Repr

/-- DnsParser::parse_answer (parser.rs line 119): name, type, class, TTL and
data length, then a dispatch on the record type.  The A arm peeks 4 bytes and
moves the cursor 4 forward; the CNAME arm decodes another (possibly
compressed) name; every remaining arm of the Rust match is todo!(), i.e. a
panic, modelled by PRes.panicked. -/
def parse_answer (fuel : Nat) (buf : List Nat) (pos : Nat) : PRes (Answer × Nat) :=
  (parse_domain_name fuel buf pos).bind fun np =>
    match advance buf np.2 2 with
    | none => .panicked
    | some (tb, pos2) =>
      match advance buf pos2 2 with
      | none => .panicked
      | some (cb, pos3) =>
        match advance buf pos3 4 with
        | none => .panicked
        | some (ttlb, pos4) =>
          match advance buf pos4 2 with
          | none => .panicked
          | some (lb, pos5) =>
            let record_type := RecordType.fromNat (collate tb)
            let meta : AnswerMeta :=
              { name := np.1, class_ := collate cb, len := collate lb,
                ttl := collate ttlb, type := record_type }
            match record_type with
            | .A =>
              match peek buf pos5 4 with
              | none => .panicked
              | some ipv4 => .ok (.A meta ipv4, pos5 + 4)
            | .CNAME =>
              (parse_domain_name fuel buf pos5).bind fun cp =>
                .ok (.CNAME meta cp.1, cp.2)
            | _ => .panicked

/-- Header (protocol/header.rs, populated by parse_header).  The Flags
structure is outside src/; since parse_header merely stores the converted
16-bit word and none of the claims inspect it, the flags field keeps the raw
collated word. -/
structure Header where
  request_id : Nat
  flags : Nat
  question_count : Nat
  answer_count : Nat
  authority_count : Nat
  additional_count : Nat
deriving DecidableEq, Repr

/-- DnsParser::parse_header (parser.rs line 173): six consecutive big-endian
16-bit fields, each cast to u16 (hence the mod 2^16). -/
def parse_header (buf : List Nat) (pos : Nat) : PRes (Header × Nat) :=
  match advance buf pos 2 with
  | none => .panicked
  | some (idb, p1) =>
    match advance buf p1 2 with
    | none => .panicked
    | some (fb, p2) =>
      match advance buf p2 2 with
      | none => .panicked
      | some (qb, p3) =>
        match advance buf p3 2 with
        | none => .panicked
        | some (ab, p4) =>
          match advance buf p4 2 with
          | none => .panicked
          | some (nb, p5) =>
            match advance buf p5 2 with
            | none => .panicked
            | some (rb, p6) =>
              .ok ({ request_id := collate idb % 65536,
                     flags := collate fb % 65536,
                     question_count := collate qb % 65536,
                     answer_count := collate ab % 65536,
                     authority_count := collate nb % 65536,
                     additional_count := collate rb % 65536 }, p6)

/-- The question loop of parse_answers: parse and discard question_count
questions, keeping the cursor. -/
def parseQuestionsLoop (fuel : Nat) (buf : List Nat) : Nat → Nat → PRes Nat
  | 0, pos => .ok pos
  | k + 1, pos =>
    (parse_question fuel buf pos).bind fun qp => parseQuestionsLoop fuel buf k qp.2

/-- The answer loop of parse_answers: parse answer_count answers in order. -/
def parseAnswersLoop (fuel : Nat) (buf : List Nat) : Nat → Nat → PRes (List Answer × Nat)
  | 0, pos => .ok ([], pos)
  | k + 1, pos =>
    (parse_answer fuel buf pos).bind fun ap =>
      (parseAnswersLoop fuel buf k ap.2).bind fun rp =>
        .ok (ap.1 :: rp.1, rp.2)

/-- DnsParser::parse_answers (parser.rs line 184): parse the header, discard
question_count questions, collect answer_count answers, and return Ok of the
answers.  The Rust Result has no failure construction anywhere in the body:
the only non-Ok outcomes are panics inside the component parsers. -/
def parse_answers (fuel : Nat) (buf : List Nat) : PRes (List Answer) :=
  (parse_header buf 0).bind fun hp =>
    (parseQuestionsLoop fuel buf hp.1.question_count hp.2).bind fun pos2 =>
      (parseAnswersLoop fuel buf hp.1.answer_count pos2).bind fun rp =>
        .ok rp.1

/-- DnsParser::get_relay_information (parser.rs line 201): reset the cursor to
0, parse the header and the first question, and return the transaction id with
that question. -/
def get_relay_information (fuel : Nat) (buf : List Nat) : PRes (Nat × Question) :=
  (parse_header buf 0).bind fun hp =>
    (parse_question fuel buf hp.2).bind fun qp =>
      .ok (hp.1.request_id, qp.1)

/-- The split of a byte string on the dot byte 46, mirroring the Rust
str::split used by encode_domain_name: the result always has one part more
than the number of dots, and empty parts are kept. -/
def splitOnDot : List Nat → List (List Nat)
  | [] => [[]]
  | b :: rest =>
    if b = 46 then [] :: splitOnDot rest
    else
      match splitOnDot rest with
      | [] => [[b]]
      | p :: ps => (b :: p) :: ps

/-- The label encoding of a list of parts: for each part a length byte (the
Rust push of part.len() as u8, hence mod 256) followed by the part bytes. -/
def encodeLabels : List (List Nat) → List Nat
  | [] => []
  | part :: parts => (part.length % 256) :: part ++ encodeLabels parts

/-- encode_domain_name (parser.rs line 211): split the dotted name on the dot,
emit a length byte and the bytes of every part, and append a terminating zero
byte. -/
def encode_domain_name (domain : List Nat) : List Nat :=
  encodeLabels (splitOnDot domain) ++ [0]

/-- The tail of a dotted join: a leading dot before every remaining part. -/
def dotSuffix : List (List Nat) → List Nat
  | [] => []
  | l :: ls => 46 :: (l ++ dotSuffix ls)

/-- Join parts with dot separators; inverse of splitOnDot. -/
def dotJoin : List (List Nat) → List Nat
  | [] => []
  | l :: ls => l ++ dotSuffix ls

/-- The length byte that the decoder will see at the start of a label list:
0 when no label remains. -/
def headLen : List (List Nat) → Nat
  | [] => 0
  | l :: _ => l.length

/-- generate_request (resolver.rs line 116): 12-byte header, the id bytes the
big-endian split of the supplied 16-bit id or the fixed sentinel pair
(0x10, 0x01), flags bytes 0x01 0x00, question count 1, the other counts 0;
then the encoded domain name, the query type A (0x0001), and the query class
IN (0x0001). -/
def generate_request (domain : List Nat) (id : Option Nat) : List Nat :=
  let idbytes : Nat × Nat :=
    match id with
    | some n => ((n >>> 8) % 256, (n &&& 0xFF) % 256)
    | none => (0x10, 0x01)
  (idbytes.1 :: idbytes.2 :: 1 :: 0 :: 0 :: 1 :: 0 :: 0 :: 0 :: 0 :: 0 :: 0 :: [])
    ++ encode_domain_name domain ++ [0, 1] ++ [0, 1]

/-- A 512-byte packet whose domain name at position 0 is a compression pointer
to offset 2, where a compression pointer points back to offset 0: the pointer
cycle of the bounded-recursion requirement. -/
def cycleBuf : List Nat := 192 :: 2 :: 192 :: 0 :: List.replicate 508 0

/-- A 512-byte packet whose header declares three answers while the body holds
a single complete A record (name root, type 1, class 1, ttl 300, length 4,
address 93.184.216.34) followed by zero padding. -/
def overcountBuf : List Nat :=
  [0, 0, 0, 0, 0, 0, 0, 3, 0, 0, 0, 0] ++
    ([0] ++ [0, 1] ++ [0, 1] ++ [0, 0, 1, 44] ++ [0, 4] ++ [93, 184, 216, 34]) ++
    List.replicate 485 0

/-- A 512-byte packet whose first byte 0xC1 has both top bits set (a
compression pointer on the wire) but is not the exact byte 0xC0. -/
def c1PointerBuf : List Nat := 193 :: 0 :: List.replicate 510 0

/-- A 512-byte packet holding a single answer of record type 2 (NS): name
root, type 2, class 1, ttl 60, data length 0. -/
def nsAnswerBuf : List Nat :=
  ([0] ++ [0, 2] ++ [0, 1] ++ [0, 0, 0, 60] ++ [0, 0]) ++ List.replicate 501 0

/-- A 512-byte packet whose first byte 0xC5 has both top bits set (a
compression pointer on the wire) but is not the exact byte 0xC0. -/
def c5PointerBuf : List Nat := 197 :: 0 :: List.replicate 510 0

/-- The bytes of the ASCII string www.example.com. -/
def wwwBytes : List Nat :=
  [119, 119, 119, 46, 101, 120, 97, 109, 112, 108, 101, 46, 99, 111, 109]

/-- The wire encoding of www.example.com from the round-trip property. -/
def wwwWire : List Nat :=
  [3, 119, 119, 119, 7, 101, 120, 97, 109, 112, 108, 101, 3, 99, 111, 109, 0]
/-! ### Arithmetic helpers for collation, pointer offsets and id bytes -/

theorem testBit_shiftLeft8_add (a b : Nat) (hb : b < 256) (i : Nat) :
    (a <<< 8 + b).testBit i = if i < 8 then b.testBit i else a.testBit (i - 8) := by
  have h256 : (2 : Nat) ^ 8 = 256 := by norm_num
  by_cases hi : i < 8
  · rw [if_pos hi]
    have h1 : ((a <<< 8 + b) % 2 ^ 8).testBit i = (a <<< 8 + b).testBit i := by
      rw [Nat.testBit_mod_two_pow]
      simp [hi]
    have h2 : (a <<< 8 + b) % 2 ^ 8 = b := by
      rw [Nat.shiftLeft_eq, Nat.mul_comm, Nat.mul_add_mod]
      apply Nat.mod_eq_of_lt
      omega
    rw [← h1, h2]
  · rw [if_neg hi]
    have h8 : i = 8 + (i - 8) := by omega
    have hdiv : (a <<< 8 + b) >>> 8 = a := by
      rw [Nat.shiftRight_eq_div_pow, Nat.shiftLeft_eq, Nat.mul_comm,
        Nat.mul_add_div (by norm_num)]
      have hz : b / 2 ^ 8 = 0 := Nat.div_eq_of_lt (by omega)
      omega
    rw [h8, ← Nat.testBit_shiftRight, hdiv]
    congr 1
    omega

theorem shiftLeft8_lor_eq_add (a b : Nat) (hb : b < 256) : a <<< 8 ||| b = a <<< 8 + b := by
  apply Nat.eq_of_testBit_eq
  intro i
  rw [Nat.testBit_lor, testBit_shiftLeft8_add a b hb]
  by_cases hi : i < 8
  · have hs : (a <<< 8).testBit i = false := by
      rw [Nat.testBit_shiftLeft]
      have h8 : ¬ (i ≥ 8) := by omega
      simp [h8]
    simp [hs, hi]
  · have hbf : b.testBit i = false :=
      Nat.testBit_lt_two_pow (lt_of_lt_of_le hb (by
        calc (256 : Nat) = 2 ^ 8 := by norm_num
        _ ≤ 2 ^ i := Nat.pow_le_pow_right (by norm_num) (by omega)))
    have hs : (a <<< 8).testBit i = a.testBit (i - 8) := by
      rw [Nat.testBit_shiftLeft]
      have h8 : i ≥ 8 := by omega
      simp [h8]
    simp [hs, hbf, hi]

theorem collate_one (a : Nat) : collate [a] = a := by
  show 0 <<< 8 ||| a = a
  rw [Nat.zero_shiftLeft, Nat.zero_or]

theorem collate_two (a b : Nat) (hb : b < 256) : collate [a, b] = a * 256 + b := by
  show (0 <<< 8 ||| a) <<< 8 ||| b = a * 256 + b
  rw [Nat.zero_shiftLeft, Nat.zero_or, shiftLeft8_lor_eq_add a b hb, Nat.shiftLeft_eq]

theorem pointer_offset_eq (b : Nat) (hb : b < 256) : collate [192, b] ^^^ 0xC000 = b := by
  rw [collate_two 192 b hb]
  apply Nat.eq_of_testBit_eq
  intro i
  rw [Nat.testBit_xor]
  have h1 : 192 * 256 + b = 192 <<< 8 + b := by rw [Nat.shiftLeft_eq]
  have h2 : (0xC000 : Nat) = 192 <<< 8 + 0 := by rw [Nat.shiftLeft_eq]
  rw [h1, h2, testBit_shiftLeft8_add 192 b hb i, testBit_shiftLeft8_add 192 0 (by norm_num) i]
  by_cases hi : i < 8
  · simp [hi]
  · have hbf : b.testBit i = false :=
      Nat.testBit_lt_two_pow (lt_of_lt_of_le hb (by
        calc (256 : Nat) = 2 ^ 8 := by norm_num
        _ ≤ 2 ^ i := Nat.pow_le_pow_right (by norm_num) (by omega)))
    simp [hi, hbf]

theorem and_255_eq_mod (n : Nat) : n &&& 0xFF = n % 256 := by
  have h := Nat.and_pow_two_sub_one_eq_mod n 8
  norm_num at h
  exact h

theorem collate_id_bytes (n : Nat) (hn : n < 65536) :
    collate [(n >>> 8) % 256, (n &&& 0xFF) % 256] % 65536 = n := by
  have h256 : (2 : Nat) ^ 8 = 256 := by norm_num
  have hhi : (n >>> 8) % 256 = n / 256 := by
    rw [Nat.shiftRight_eq_div_pow, h256]
    apply Nat.mod_eq_of_lt
    omega
  have hlo : (n &&& 0xFF) % 256 = n % 256 := by
    rw [and_255_eq_mod]
    apply Nat.mod_eq_of_lt
    omega
  rw [hhi, hlo, collate_two _ _ (by omega)]
  have hdm : n / 256 * 256 + n % 256 = n := by omega
  rw [hdm]
  exact Nat.mod_eq_of_lt hn

/-! ### Cursor lemmas -/

theorem peek_ok {buf : List Nat} {pos n : Nat} (h : pos + n ≤ buf.length) :
    peek buf pos n = some ((buf.drop pos).take n) := by
  simp [peek, h]

theorem advance_ok {buf : List Nat} {pos n : Nat} (h : pos + n ≤ buf.length) :
    advance buf pos n = some ((buf.drop pos).take n, pos + n) := by
  simp [advance, h]

/-! ### Lemmas about splitting and joining dotted names -/

theorem splitOnDot_ne_nil (d : List Nat) : splitOnDot d ≠ [] := by
  cases d with
  | nil => simp [splitOnDot]
  | cons b rest =>
    simp only [splitOnDot]
    split
    · simp
    · split <;> simp

theorem encodeLabels_cons_length (part : List Nat) (parts : List (List Nat)) :
    (encodeLabels (part :: parts)).length = 1 + part.length + (encodeLabels parts).length := by
  simp [encodeLabels]
  omega

theorem encodeLabels_splitOnDot_length (d : List Nat) :
    (encodeLabels (splitOnDot d)).length = d.length + 1 := by
  induction d with
  | nil => rfl
  | cons b rest ih =>
    by_cases hb : b = 46
    · rw [splitOnDot, if_pos hb, encodeLabels_cons_length]
      simp [ih]
      omega
    · rw [splitOnDot, if_neg hb]
      cases hsp : splitOnDot rest with
      | nil => exact absurd hsp (splitOnDot_ne_nil rest)
      | cons p ps =>
        rw [hsp] at ih
        rw [encodeLabels_cons_length] at ih ⊢
        simp at ih ⊢
        omega

theorem dotJoin_splitOnDot (d : List Nat) : dotJoin (splitOnDot d) = d := by
  induction d with
  | nil => rfl
  | cons b rest ih =>
    by_cases hb : b = 46
    · subst hb
      rw [splitOnDot, if_pos rfl]
      cases hsp : splitOnDot rest with
      | nil => exact absurd hsp (splitOnDot_ne_nil rest)
      | cons q qs =>
        rw [hsp] at ih
        rw [dotJoin] at ih ⊢
        rw [dotSuffix]
        simp only [List.nil_append]
        rw [← ih]
    · rw [splitOnDot, if_neg hb]
      cases hsp : splitOnDot rest with
      | nil => exact absurd hsp (splitOnDot_ne_nil rest)
      | cons p ps =>
        rw [hsp] at ih
        rw [dotJoin] at ih ⊢
        simp [ih]

theorem splitOnDot_length_le (d : List Nat) : (splitOnDot d).length ≤ d.length + 1 := by
  induction d with
  | nil => simp [splitOnDot]
  | cons b rest ih =>
    by_cases hb : b = 46
    · rw [splitOnDot, if_pos hb]
      simp
      omega
    · rw [splitOnDot, if_neg hb]
      cases hsp : splitOnDot rest with
      | nil => simp
      | cons p ps =>
        rw [hsp] at ih
        simp at ih ⊢
        omega

/-! ### Small take lemmas (definitional, stated for rewriting) -/

theorem take_one_cons {α : Type} (a : α) (l : List α) : (a :: l).take 1 = [a] := rfl

theorem take_two_cons {α : Type} (a b : α) (l : List α) : (a :: b :: l).take 2 = [a, b] := rfl

theorem take_four_cons {α : Type} (a b c d : α) (l : List α) :
    (a :: b :: c :: d :: l).take 4 = [a, b, c, d] := rfl

/-! ### The inline decoding loop decodes encoded labels -/

theorem parseName_loop_spec (labels : List (List Nat)) :
    ∀ (fuel : Nat) (buf : List Nat) (P : Nat) (acc rest : List Nat),
      (∀ l ∈ labels, 0 < l.length ∧ l.length ≤ 63) →
      labels.length + 1 ≤ fuel →
      buf.drop P = encodeLabels labels ++ 0 :: rest →
      parseName fuel (.looping (headLen labels)) buf P acc
        = .ok (acc ++ dotJoin labels, P + (encodeLabels labels).length + 1) := by
  induction labels with
  | nil =>
    intro fuel buf P acc rest hl hf hdrop
    obtain ⟨f, rfl⟩ : ∃ f, fuel = f + 1 := ⟨fuel - 1, by omega⟩
    simp only [encodeLabels, List.nil_append] at hdrop
    have hdl := congrArg List.length hdrop
    simp only [List.length_drop, List.length_cons] at hdl
    have hP1 : P + 1 ≤ buf.length := by omega
    show parseName (f + 1) (.looping (headLen [])) buf P acc = _
    simp only [headLen, parseName]
    rw [if_neg (by omega)]
    rw [advance_ok hP1, hdrop, take_one_cons]
    simp [dotJoin, encodeLabels]
  | cons l ls ih =>
    intro fuel buf P acc rest hl hf hdrop
    obtain ⟨hl1, hl63⟩ := hl l (by simp)
    obtain ⟨f, rfl⟩ : ∃ f, fuel = f + 1 := ⟨fuel - 1, by omega⟩
    have hmod : l.length % 256 = l.length := Nat.mod_eq_of_lt (by omega)
    have hE : encodeLabels (l :: ls) ++ 0 :: rest
        = l.length :: (l ++ (encodeLabels ls ++ 0 :: rest)) := by
      rw [encodeLabels, hmod]
      simp [List.append_assoc]
    rw [hE] at hdrop
    have hdl := congrArg List.length hdrop
    simp only [List.length_drop, List.length_cons, List.length_append] at hdl
    have hdrop1 : buf.drop (P + 1) = l ++ (encodeLabels ls ++ 0 :: rest) := by
      have h := congrArg (List.drop 1) hdrop
      rw [List.drop_drop] at h
      simpa using h
    have hdrop2 : buf.drop (P + 1 + l.length) = encodeLabels ls ++ 0 :: rest := by
      have h := congrArg (List.drop l.length) hdrop1
      rw [List.drop_drop] at h
      rw [List.drop_left] at h
      simpa [Nat.add_assoc] using h
    show parseName (f + 1) (.looping (headLen (l :: ls))) buf P acc = _
    simp only [headLen, parseName]
    rw [if_pos ⟨hl1, by omega⟩]
    rw [advance_ok (show P + 1 ≤ buf.length by omega), hdrop, take_one_cons]
    simp only []
    rw [advance_ok (show P + 1 + l.length ≤ buf.length by omega), hdrop1, List.take_left]
    simp only []
    rw [peek_ok (show P + 1 + l.length + 1 ≤ buf.length by omega), hdrop2]
    cases ls with
    | nil =>
      have hih := ih f buf (P + 1 + l.length) (acc ++ l) rest (by simp)
        (by simp at hf ⊢; omega) (by simpa [encodeLabels] using hdrop2)
      simp only [headLen] at hih
      simp only [encodeLabels, List.nil_append, take_one_cons, collate_one]
      norm_num
      rw [hih]
      simp [dotJoin, dotSuffix, encodeLabels, hmod]
      omega
    | cons m ms =>
      obtain ⟨hm1, hm63⟩ := hl m (by simp)
      have hmodm : m.length % 256 = m.length := Nat.mod_eq_of_lt (by omega)
      have hEm : encodeLabels (m :: ms) ++ 0 :: rest
          = m.length :: (m ++ (encodeLabels ms ++ 0 :: rest)) := by
        rw [encodeLabels, hmodm]
        simp [List.append_assoc]
      have hih := ih f buf (P + 1 + l.length) (acc ++ l ++ [46]) rest
        (fun x hx => hl x (by simp [hx]))
        (by simp at hf ⊢; omega)
        hdrop2
      simp only [headLen] at hih
      rw [hEm, take_one_cons]
      dsimp only []
      simp only [collate_one]
      rw [if_neg (show ¬ m.length = 192 by omega)]
      rw [if_pos hm1]
      rw [hih]
      simp [dotJoin, dotSuffix, encodeLabels_cons_length, List.append_assoc]
      omega

/-- Entering the decoder at parse_domain_name_rec on an inline-encoded
nonempty label sequence decodes the dotted join and stops one byte past the
terminating zero. -/
theorem parseName_rec_spec (labels : List (List Nat)) (fuel : Nat) (buf : List Nat)
    (P : Nat) (acc rest : List Nat)
    (hl : ∀ l ∈ labels, 0 < l.length ∧ l.length ≤ 63)
    (hne : labels ≠ [])
    (hf : labels.length + 3 ≤ fuel)
    (hdrop : buf.drop P = encodeLabels labels ++ 0 :: rest) :
    parseName fuel .recur buf P acc
      = .ok (acc ++ dotJoin labels, P + (encodeLabels labels).length + 1) := by
  obtain ⟨l, ls, rfl⟩ : ∃ l ls, labels = l :: ls := by
    cases labels with
    | nil => exact absurd rfl hne
    | cons l ls => exact ⟨l, ls, rfl⟩
  obtain ⟨hl1, hl63⟩ := hl l (by simp)
  have hmod : l.length % 256 = l.length := Nat.mod_eq_of_lt (by omega)
  have hE : encodeLabels (l :: ls) ++ 0 :: rest
      = l.length :: (l ++ (encodeLabels ls ++ 0 :: rest)) := by
    rw [encodeLabels, hmod]
    simp [List.append_assoc]
  have hdropE : buf.drop P = l.length :: (l ++ (encodeLabels ls ++ 0 :: rest)) := by
    rw [hdrop, hE]
  have hdl := congrArg List.length hdropE
  simp only [List.length_drop, List.length_cons, List.length_append] at hdl
  obtain ⟨f, rfl⟩ : ∃ f, fuel = f + 1 + 1 := ⟨fuel - 2, by omega⟩
  have hloop := parseName_loop_spec (l :: ls) f buf P acc rest hl
    (by simp at hf ⊢; omega) hdrop
  simp only [headLen] at hloop
  show parseName (f + 1 + 1) .recur buf P acc = _
  simp only [parseName]
  rw [peek_ok (show P + 1 ≤ buf.length by omega), hdropE, take_one_cons]
  dsimp only []
  simp only [collate_one]
  rw [if_neg (show ¬ l.length = 0xC0 by omega)]
  rw [if_neg (show ¬ l.length = 192 by omega)]
  exact hloop

/-! ### Claim theorems -/

set_option maxRecDepth 4096

/-- On the pointer cycle of cycleBuf (offset 0 points to offset 2 and offset 2
points back to offset 0), the decoder starting at either end of the cycle
consumes all its fuel, for every amount of fuel. -/
theorem cycle_pair (fuel : Nat) (acc : List Nat) :
    parseName fuel .recur cycleBuf 0 acc = .outOfFuel ∧
    parseName fuel .recur cycleBuf 2 acc = .outOfFuel := by
  induction fuel with
  | zero => exact ⟨rfl, rfl⟩
  | succ f ih =>
    obtain ⟨ih0, ih2⟩ := ih
    constructor
    · show parseName (f + 1) .recur cycleBuf 0 acc = .outOfFuel
      simp only [parseName]
      rw [peek_ok (show 0 + 1 ≤ cycleBuf.length by decide)]
      rw [show (cycleBuf.drop 0).take 1 = [192] from rfl]
      dsimp only []
      simp only [show collate [192] = 0xC0 from by decide, if_true]
      rw [advance_ok (show 0 + 2 ≤ cycleBuf.length by decide)]
      rw [show (cycleBuf.drop 0).take 2 = [192, 2] from rfl]
      dsimp only []
      simp only [show collate [192, 2] ^^^ 0xC000 = 2 from by decide]
      rw [ih2]
    · show parseName (f + 1) .recur cycleBuf 2 acc = .outOfFuel
      simp only [parseName]
      rw [peek_ok (show 2 + 1 ≤ cycleBuf.length by decide)]
      rw [show (cycleBuf.drop 2).take 1 = [192] from rfl]
      dsimp only []
      simp only [show collate [192] = 0xC0 from by decide, if_true]
      rw [advance_ok (show 2 + 2 ≤ cycleBuf.length by decide)]
      rw [show (cycleBuf.drop 2).take 2 = [192, 0] from rfl]
      dsimp only []
      simp only [show collate [192, 0] ^^^ 0xC000 = 0 from by decide]
      rw [ih0]

/-- C1: the code does not satisfy the claim.  On a 512-byte buffer whose
compression pointers form the cycle 0 to 2 to 0, the domain-name decode never
terminates: for every fuel bound the recursion of parse_domain_name_rec is
still running (and the code has no MalformedPacket outcome at all, its return
type being a plain String). -/
theorem C1_cycle_decode_never_terminates (fuel : Nat) :
    parse_domain_name fuel cycleBuf 0 = .outOfFuel :=
  (cycle_pair fuel []).1

theorem C1_cycle_decode_never_terminates_witness :
    parse_domain_name 64 cycleBuf 0 = .outOfFuel :=
  C1_cycle_decode_never_terminates 64

/-- C2: the code does not satisfy the claim.  When position + n exceeds the
buffer length, peek and advance do not return an error value: the Rust slice
indexing panics (modelled by none), so the checked bounds failure is a panic,
not an explicit out-of-bounds error value. -/
theorem C2_out_of_bounds_read_panics (buf : List Nat) (pos n : Nat)
    (hbuf : buf.length = 512) (hoob : 512 < pos + n) :
    peek buf pos n = none ∧ advance buf pos n = none := by
  have h : ¬ (pos + n ≤ buf.length) := by omega
  exact ⟨by simp [peek, h], by simp [advance, h]⟩

theorem C2_out_of_bounds_read_panics_witness :
    peek (List.replicate 512 0) 510 4 = none ∧
    advance (List.replicate 512 0) 510 4 = none :=
  C2_out_of_bounds_read_panics (List.replicate 512 0) 510 4 (by simp) (by omega)

/-- C3: the code does not satisfy the claim.  On a 512-byte buffer whose
header declares three answers while only one complete answer record is
present (the rest of the buffer being zero bytes), parse_answers does not
return a MalformedPacket failure: parsing the second answer reads record type
0, whose match arm in parse_answer is a todo marker, i.e. a panic. -/
theorem C3_overdeclared_answer_count_panics :
    parse_answers 600 overcountBuf = .panicked := by
  decide

/-- C4: the code does not satisfy the claim.  The byte 0xC1 has both top bits
set, so on the wire it starts a compression pointer, but the decoder compares
the byte for equality with 0xC0 and therefore treats 0xC1 as an inline length
byte of value 193: decoding c1PointerBuf (0xC1 0x00 followed by zeros) yields
a 193-byte label of zeros with the cursor at 195, not a pointer follow. -/
theorem C4_masked_pointer_byte_parsed_inline :
    c1PointerBuf.take 1 = [193] ∧ 193 &&& 0xC0 = 0xC0 ∧
    parse_domain_name 600 c1PointerBuf 0 = .ok (List.replicate 193 0, 195) := by
  decide

/-- C5: the code does not satisfy the claim.  An answer record of type 2 (NS),
which has no payload decoder, neither skips the declared data length nor
signals an unsupported-record-type condition: the NS arm of parse_answer is a
todo marker, i.e. a panic. -/
theorem C5_unsupported_record_type_panics :
    parse_answer 600 nsAnswerBuf 0 = .panicked := by
  decide

/-- C6 counterexample: a name beginning with the compression-pointer byte 0xC5
(top two bits set) is not decoded as a pointer: the cursor ends at 199, not at
position 0 + 2, refuting the claim as stated for pointers whose first byte is
not exactly 0xC0. -/
theorem C6_counterexample :
    c5PointerBuf.take 1 = [197] ∧ 197 &&& 0xC0 = 0xC0 ∧
    parse_domain_name 600 c5PointerBuf 0 = .ok (List.replicate 197 0, 199) ∧
    (199 : Nat) ≠ 0 + 2 := by
  decide

/-- C6 amended: for every name that begins with the exact pointer byte 0xC0 at
cursor position p (the only pointer form the decoder recognises), decoding
leaves the cursor at exactly p + 2, and the decoded bytes equal the bytes
obtained by decoding at the pointed-to offset, which is the 14-bit offset of
the two pointer bytes (here the second byte, the first being exactly 0xC0). -/
theorem C6_pointer_restores_cursor (pre rest name : List Nat) (b fuel q : Nat)
    (hb : b < 256)
    (htarget : parse_domain_name fuel (pre ++ 192 :: b :: rest) b = .ok (name, q)) :
    parse_domain_name (fuel + 1) (pre ++ 192 :: b :: rest) pre.length
      = .ok (name, pre.length + 2) := by
  simp only [parse_domain_name] at htarget ⊢
  have hdrop : (pre ++ 192 :: b :: rest).drop pre.length = 192 :: b :: rest :=
    List.drop_left _ _
  simp only [parseName]
  rw [peek_ok (by simp), hdrop, take_one_cons]
  dsimp only []
  simp only [collate_one, if_true]
  rw [advance_ok (by simp), hdrop, take_two_cons]
  dsimp only []
  rw [pointer_offset_eq b hb]
  rw [htarget]

theorem C6_pointer_restores_cursor_witness :
    parse_domain_name 600
      ([] ++ 192 :: 4 :: (0 :: 0 :: 2 :: 104 :: 105 :: 0 :: List.replicate 504 0))
      (List.length ([] : List Nat)) = .ok ([104, 105], List.length ([] : List Nat) + 2) :=
  C6_pointer_restores_cursor [] (0 :: 0 :: 2 :: 104 :: 105 :: 0 :: List.replicate 504 0)
    [104, 105] 4 599 8 (by omega) (by decide)

/-- C7: the query packet layout.  For a supplied 16-bit id n the packet is the
two big-endian bytes of n, the flags bytes 0x01 0x00, the counts 1, 0, 0, 0 as
big-endian 16-bit fields, the length-prefixed domain encoding, then QTYPE 1
and QCLASS 1 as big-endian 16-bit fields; with no id supplied the fixed
sentinel bytes 0x10 0x01 take the place of the id. -/
theorem C7_generate_request_layout (d : List Nat) (n : Nat) (hn : n < 65536) :
    generate_request d (some n)
        = n / 256 :: n % 256 :: 1 :: 0 :: 0 :: 1 :: 0 :: 0 :: 0 :: 0 :: 0 :: 0 ::
            (encode_domain_name d ++ [0, 1] ++ [0, 1])
      ∧ generate_request d none
        = 16 :: 1 :: 1 :: 0 :: 0 :: 1 :: 0 :: 0 :: 0 :: 0 :: 0 :: 0 ::
            (encode_domain_name d ++ [0, 1] ++ [0, 1]) := by
  have hhi : (n >>> 8) % 256 = n / 256 := by
    rw [Nat.shiftRight_eq_div_pow, (by norm_num : (2 : Nat) ^ 8 = 256)]
    apply Nat.mod_eq_of_lt
    omega
  have hlo : (n &&& 0xFF) % 256 = n % 256 := by
    rw [and_255_eq_mod]
    apply Nat.mod_eq_of_lt
    omega
  constructor
  · simp [generate_request, hhi, hlo, List.append_assoc]
  · simp [generate_request, List.append_assoc]

theorem C7_generate_request_layout_witness :
    generate_request [97] (some 258)
        = 258 / 256 :: 258 % 256 :: 1 :: 0 :: 0 :: 1 :: 0 :: 0 :: 0 :: 0 :: 0 :: 0 ::
            (encode_domain_name [97] ++ [0, 1] ++ [0, 1]) :=
  (C7_generate_request_layout [97] 258 (by omega)).1

/-- C8: encoding www.example.com yields exactly the length-prefixed byte
sequence of the claim, and decoding that sequence (padded to a 512-byte
buffer) yields the bytes of www.example.com with the cursor one byte past the
terminating zero. -/
theorem C8_www_example_com_roundtrip :
    encode_domain_name wwwBytes = wwwWire ∧
    parse_domain_name 600 (wwwWire ++ List.replicate 495 0) 0 = .ok (wwwBytes, 17) := by
  decide

/-- C10: encoding is total and length-exact: for every input byte string,
empty string and empty segments included, the encoding is two bytes longer
than the input (one length byte per dot-separated segment, one dot byte lost
per separator, plus the terminating zero byte) and ends in the zero byte. -/
theorem C10_encode_total_length (d : List Nat) :
    (encode_domain_name d).length = d.length + 2 ∧
    (encode_domain_name d).getLast? = some 0 := by
  constructor
  · rw [encode_domain_name]
    simp [List.length_append, encodeLabels_splitOnDot_length]
  · rw [encode_domain_name]
    exact List.getLast?_concat _

theorem C10_encode_total_length_witness :
    (encode_domain_name [97, 46, 98]).length = [97, 46, 98].length + 2 ∧
    (encode_domain_name [97, 46, 98]).getLast? = some 0 :=
  C10_encode_total_length [97, 46, 98]

/-- parse_header on a buffer with at least 12 bytes: six collated big-endian
16-bit fields, cursor at 12. -/
theorem parse_header_cons (b0 b1 b2 b3 b4 b5 b6 b7 b8 b9 b10 b11 : Nat) (tail : List Nat) :
    parse_header (b0 :: b1 :: b2 :: b3 :: b4 :: b5 :: b6 :: b7 :: b8 :: b9 :: b10 :: b11 :: tail) 0
      = .ok ({ request_id := collate [b0, b1] % 65536,
               flags := collate [b2, b3] % 65536,
               question_count := collate [b4, b5] % 65536,
               answer_count := collate [b6, b7] % 65536,
               authority_count := collate [b8, b9] % 65536,
               additional_count := collate [b10, b11] % 65536 }, 12) := by
  simp only [parse_header]
  rw [advance_ok (by simp only [List.length_cons]; omega)]
  rw [show (((b0 :: b1 :: b2 :: b3 :: b4 :: b5 :: b6 :: b7 :: b8 :: b9 :: b10 :: b11 :: tail).drop 0).take 2) = [b0, b1] from rfl]
  dsimp only []
  rw [advance_ok (by simp only [List.length_cons]; omega)]
  rw [show (((b0 :: b1 :: b2 :: b3 :: b4 :: b5 :: b6 :: b7 :: b8 :: b9 :: b10 :: b11 :: tail).drop (0 + 2)).take 2) = [b2, b3] from rfl]
  dsimp only []
  rw [advance_ok (by simp only [List.length_cons]; omega)]
  rw [show (((b0 :: b1 :: b2 :: b3 :: b4 :: b5 :: b6 :: b7 :: b8 :: b9 :: b10 :: b11 :: tail).drop (0 + 2 + 2)).take 2) = [b4, b5] from rfl]
  dsimp only []
  rw [advance_ok (by simp only [List.length_cons]; omega)]
  rw [show (((b0 :: b1 :: b2 :: b3 :: b4 :: b5 :: b6 :: b7 :: b8 :: b9 :: b10 :: b11 :: tail).drop (0 + 2 + 2 + 2)).take 2) = [b6, b7] from rfl]
  dsimp only []
  rw [advance_ok (by simp only [List.length_cons]; omega)]
  rw [show (((b0 :: b1 :: b2 :: b3 :: b4 :: b5 :: b6 :: b7 :: b8 :: b9 :: b10 :: b11 :: tail).drop (0 + 2 + 2 + 2 + 2)).take 2) = [b8, b9] from rfl]
  dsimp only []
  rw [advance_ok (by simp only [List.length_cons]; omega)]
  rw [show (((b0 :: b1 :: b2 :: b3 :: b4 :: b5 :: b6 :: b7 :: b8 :: b9 :: b10 :: b11 :: tail).drop (0 + 2 + 2 + 2 + 2 + 2)).take 2) = [b10, b11] from rfl]

/-- get_relay_information on a buffer made of a 12-byte header, an
inline-encoded nonempty label sequence with its terminating zero, and four
further bytes (type and class of the first question): it returns the collated
id and the question with the dot-joined name, collated type and class. -/
theorem get_relay_information_spec (b0 b1 b2 b3 b4 b5 b6 b7 b8 b9 b10 b11 t0 t1 c0 c1 : Nat)
    (L : List (List Nat)) (rest : List Nat) (fuel : Nat)
    (hl : ∀ p ∈ L, 0 < p.length ∧ p.length ≤ 63) (hne : L ≠ [])
    (hf : L.length + 3 ≤ fuel) :
    get_relay_information fuel
      (b0 :: b1 :: b2 :: b3 :: b4 :: b5 :: b6 :: b7 :: b8 :: b9 :: b10 :: b11 ::
        (encodeLabels L ++ 0 :: t0 :: t1 :: c0 :: c1 :: rest))
      = .ok (collate [b0, b1] % 65536,
             { domain_name := dotJoin L,
               type := collate [t0, t1],
               class_ := collate [c0, c1] }) := by
  have hdrop12 :
      (b0 :: b1 :: b2 :: b3 :: b4 :: b5 :: b6 :: b7 :: b8 :: b9 :: b10 :: b11 ::
        (encodeLabels L ++ 0 :: t0 :: t1 :: c0 :: c1 :: rest)).drop 12
      = encodeLabels L ++ 0 :: (t0 :: t1 :: c0 :: c1 :: rest) := rfl
  have hlenB :
      (b0 :: b1 :: b2 :: b3 :: b4 :: b5 :: b6 :: b7 :: b8 :: b9 :: b10 :: b11 ::
        (encodeLabels L ++ 0 :: t0 :: t1 :: c0 :: c1 :: rest)).length
      = 12 + (encodeLabels L).length + 5 + rest.length := by
    simp only [List.length_cons, List.length_append]
    omega
  have hname := parseName_rec_spec L fuel
    (b0 :: b1 :: b2 :: b3 :: b4 :: b5 :: b6 :: b7 :: b8 :: b9 :: b10 :: b11 ::
      (encodeLabels L ++ 0 :: t0 :: t1 :: c0 :: c1 :: rest))
    12 [] (t0 :: t1 :: c0 :: c1 :: rest) hl hne hf hdrop12
  have hdropQ :
      (b0 :: b1 :: b2 :: b3 :: b4 :: b5 :: b6 :: b7 :: b8 :: b9 :: b10 :: b11 ::
        (encodeLabels L ++ 0 :: t0 :: t1 :: c0 :: c1 :: rest)).drop
          (12 + (encodeLabels L).length + 1)
      = t0 :: t1 :: c0 :: c1 :: rest := by
    have h2 : (encodeLabels L ++ 0 :: t0 :: t1 :: c0 :: c1 :: rest).drop
        ((encodeLabels L).length + 1) = t0 :: t1 :: c0 :: c1 :: rest := by
      rw [← List.drop_drop]
      rw [List.drop_left]
      rfl
    have h := congrArg (List.drop ((encodeLabels L).length + 1)) hdrop12
    rw [List.drop_drop] at h
    rw [h2] at h
    rw [← Nat.add_assoc] at h
    exact h
  have hdropQ2 :
      (b0 :: b1 :: b2 :: b3 :: b4 :: b5 :: b6 :: b7 :: b8 :: b9 :: b10 :: b11 ::
        (encodeLabels L ++ 0 :: t0 :: t1 :: c0 :: c1 :: rest)).drop
          (12 + (encodeLabels L).length + 1 + 2)
      = c0 :: c1 :: rest := by
    have h := congrArg (List.drop 2) hdropQ
    rw [List.drop_drop] at h
    rw [show (t0 :: t1 :: c0 :: c1 :: rest).drop 2 = c0 :: c1 :: rest from rfl] at h
    exact h
  simp only [get_relay_information]
  rw [parse_header_cons]
  simp only [PRes.bind]
  simp only [parse_question, parse_domain_name]
  rw [hname]
  simp only [PRes.bind]
  rw [advance_ok (by rw [hlenB]; omega), hdropQ, take_two_cons]
  dsimp only []
  rw [advance_ok (by rw [hlenB]; omega), hdropQ2, take_two_cons]
  dsimp only []
  simp

/-- C9: generate then extract round trip.  For every 16-bit id n and every
ASCII domain whose dot-separated labels are all nonempty and at most 63 bytes,
placing generate_request of the domain and id at the start of a zero-filled
512-byte buffer (the request must fit, which bounds the domain length) and
running get_relay_information returns the id n and a Question carrying the
original domain bytes, type 1 and class 1. -/
theorem C9_request_relay_roundtrip (d : List Nat) (n : Nat)
    (hn : n < 65536)
    (hascii : ∀ b ∈ d, b < 128)
    (hlab : ∀ p ∈ splitOnDot d, 0 < p.length ∧ p.length ≤ 63)
    (hfit : d.length + 18 ≤ 512) :
    get_relay_information 600
      (generate_request d (some n) ++
        List.replicate (512 - (generate_request d (some n)).length) 0)
      = .ok (n, { domain_name := d, type := 1, class_ := 1 }) := by
  have hreq : generate_request d (some n)
      = ((n >>> 8) % 256) :: ((n &&& 0xFF) % 256) :: 1 :: 0 :: 0 :: 1 :: 0 :: 0 :: 0 :: 0 :: 0 :: 0 ::
          (encodeLabels (splitOnDot d) ++ 0 :: 0 :: 1 :: 0 :: 1 :: []) := by
    simp [generate_request, encode_domain_name, List.append_assoc]
  have hfuel : (splitOnDot d).length + 3 ≤ 600 := by
    have := splitOnDot_length_le d
    omega
  rw [hreq]
  simp only [List.cons_append, List.append_assoc, List.nil_append]
  rw [get_relay_information_spec _ _ _ _ _ _ _ _ _ _ _ _ 0 1 0 1 (splitOnDot d) _ 600
    hlab (splitOnDot_ne_nil d) hfuel]
  rw [collate_id_bytes n hn]
  rw [dotJoin_splitOnDot]
  simp only [show collate [0, 1] = 1 from by decide]

theorem C9_request_relay_roundtrip_witness :
    get_relay_information 600
      (generate_request [97, 98] (some 43981) ++
        List.replicate (512 - (generate_request [97, 98] (some 43981)).length) 0)
      = .ok (43981, { domain_name := [97, 98], type := 1, class_ := 1 }) :=
  C9_request_relay_roundtrip [97, 98] 43981 (by omega) (by decide) (by decide) (by decide)
